import Mathlib

/-!
# Metrics engine of `compare.py`, shallowly embedded

The program compares generated circuit patterns against reference SVGs.
Its metrics engine consists of three parts, all embedded here:

* `analyze_pixels` (the JavaScript evaluated in the page): white-pixel
  coverage of an RGBA buffer, overall and per quadrant of a fixed 2×4 grid;
* `get_generated_stats` (JavaScript): edge-type counts and densities over
  grid panels, and chain lengths extracted from SVG path `d` strings;
* the aggregation in `main` (Python): mean coverage over a sample list.

JavaScript numbers are modelled as exact rationals; `+x.toFixed(k)` is
modelled as exact rounding to the nearest multiple of `10^-k`, and the
JavaScript value `NaN` (which arises only from `0/0` here) is modelled by
`Option.none`.  Machine floats and rationals agree on every concrete value
appearing in this development.
-/

namespace Compare

/-- An RGBA pixel buffer as exposed by `ctx.getImageData`: flat channel
data, row-major, four channels per pixel. -/
structure PixelBuffer where
  width : ℕ
  height : ℕ
  data : List ℕ

/-- Channel `k` of the pixel at column `x`, row `y`:
`data[(y * w + x) * 4 + k]` in `analyze_pixels`. -/
def PixelBuffer.chan (b : PixelBuffer) (y x k : ℕ) : ℕ :=
  b.data.getD ((y * b.width + x) * 4 + k) 0

/-- The constant `qRows = 2` in `analyze_pixels`. -/
def qRows : ℕ := 2

/-- The constant `qCols = 4` in `analyze_pixels`. -/
def qCols : ℕ := 4

/-- Models `+x.toFixed(1)`: rounding to one decimal place. -/
def toFixed1 (x : ℚ) : ℚ := (round (x * 10) : ℤ) / 10

/-- Models `+x.toFixed(2)`: rounding to two decimal places. -/
def toFixed2 (x : ℚ) : ℚ := (round (x * 100) : ℤ) / 100

/-- The expression `const brightness = (data[i] + data[i+1] + data[i+2]) / 3` — the mean of
the R, G and B channels; the alpha channel `data[i+3]` is never read. -/
def brightness (b : PixelBuffer) (y x : ℕ) : ℚ :=
  ((b.chan y x 0 : ℚ) + (b.chan y x 1 : ℚ) + (b.chan y x 2 : ℚ)) / 3

/-- The classifier `const isWhite = brightness > 128 ? 1 : 0` in `analyze_pixels`. -/
def isWhite (b : PixelBuffer) (y x : ℕ) : Bool :=
  decide ((128 : ℚ) < brightness b y x)

/-- The row index `Math.min(Math.floor(y / h * qRows), qRows - 1)`. -/
def quadRow (b : PixelBuffer) (y : ℕ) : ℕ :=
  min (⌊(y : ℚ) / (b.height : ℚ) * (qRows : ℚ)⌋.toNat) (qRows - 1)

/-- The column index `Math.min(Math.floor(x / w * qCols), qCols - 1)`. -/
def quadCol (b : PixelBuffer) (x : ℕ) : ℕ :=
  min (⌊(x : ℚ) / (b.width : ℚ) * (qCols : ℚ)⌋.toNat) (qCols - 1)

/-- The index set of the double pixel loop `for y … for x …`, as the set of
pairs `(y, x)`. -/
def pixels (b : PixelBuffer) : Finset (ℕ × ℕ) :=
  Finset.range b.height ×ˢ Finset.range b.width

/-- The quadrant cell `(qr, qc)` a pixel is assigned to. -/
def quadOf (b : PixelBuffer) (p : ℕ × ℕ) : ℕ × ℕ :=
  (quadRow b p.1, quadCol b p.2)

/-- The accumulator `whiteTotal`: number of white pixels in the whole buffer. -/
def whiteTotal (b : PixelBuffer) : ℕ :=
  ∑ p ∈ pixels b, if isWhite b p.1 p.2 then 1 else 0

/-- The counter `quadrantTotals[r][c]`: number of pixels assigned to cell `(r, c)`. -/
def quadrantTotal (b : PixelBuffer) (r c : ℕ) : ℕ :=
  ((pixels b).filter fun p => quadOf b p = (r, c)).card

/-- The counter `quadrants[r][c]`: number of white pixels assigned to cell `(r, c)`. -/
def quadrantWhite (b : PixelBuffer) (r c : ℕ) : ℕ :=
  ∑ p ∈ (pixels b).filter fun p => quadOf b p = (r, c),
    if isWhite b p.1 p.2 then 1 else 0

/-- The cell percentage `+(v / quadrantTotals[ri][ci] * 100).toFixed(1)`: the per-cell coverage
percentage.  A cell with zero pixels yields `0/0 = NaN` in JavaScript,
modelled as `none`. -/
def quadrantPct (b : PixelBuffer) (r c : ℕ) : Option ℚ :=
  if quadrantTotal b r c = 0 then none
  else some (toFixed1 ((quadrantWhite b r c : ℚ) / (quadrantTotal b r c : ℚ) * 100))

/-- The object literal returned by the `page.evaluate` block of
`analyze_pixels`. -/
structure CoverageReport where
  width : ℕ
  height : ℕ
  totalPixels : ℕ
  whitePixels : ℕ
  coveragePct : Option ℚ
  quadrantCoverage : List (List (Option ℚ))

/-- The coverage report computed by `analyze_pixels`.  `coveragePct` is
`+(whiteTotal / total * 100).toFixed(2)`; when `total = 0` this is
`0/0 = NaN`, modelled as `none`. -/
def mkCoverageReport (b : PixelBuffer) : CoverageReport where
  width := b.width
  height := b.height
  totalPixels := b.width * b.height
  whitePixels := whiteTotal b
  coveragePct :=
    if b.width * b.height = 0 then none
    else some (toFixed2 ((whiteTotal b : ℚ) / ((b.width * b.height : ℕ) : ℚ) * 100))
  quadrantCoverage :=
    (List.range qRows).map fun r => (List.range qCols).map fun c => quadrantPct b r c

/-- The error the spec names for zero-sized buffers.  `analyze_pixels` has
no branch producing it. -/
inductive AnalyzeError
  | invalidBuffer
deriving DecidableEq

/-- The function `analyze_pixels` as a fallible analyzer: the code performs no
validation of the buffer dimensions, so every buffer yields a report. -/
def analyzePixels (b : PixelBuffer) : Except AnalyzeError CoverageReport :=
  Except.ok (mkCoverageReport b)

/-- The tag of a diagonal edge record: `e.type === 'arc'` or anything
else (counted as diagonal). -/
inductive DEdgeKind
  | arc
  | diagonal
deriving DecidableEq

/-- One record of a panel's `dEdges` list. -/
structure DEdge where
  type : DEdgeKind
deriving DecidableEq

/-- The constant `ROWS` from `index.html`, pinned by the comments of
`get_generated_stats`: `ROWS * COLS = 85` nodes, `80 = ROWS * (COLS - 1)`
horizontal slots, `68 = (ROWS - 1) * COLS` vertical slots. -/
def ROWS : ℕ := 5

/-- The constant `COLS` from `index.html`; see `ROWS`. -/
def COLS : ℕ := 17

/-- One grid panel as queried by `get_generated_stats`: horizontal and
vertical edge presence plus the diagonal/arc edge list. -/
structure Grid where
  getH : ℕ → ℕ → Bool
  getV : ℕ → ℕ → Bool
  dEdges : List DEdge

/-- Contribution of one panel to `hCount`: `getH(r, c)` summed over
`r < ROWS`, `c < COLS - 1`. -/
def hCountOf (g : Grid) : ℕ :=
  ∑ r ∈ Finset.range ROWS, ∑ c ∈ Finset.range (COLS - 1),
    if g.getH r c then 1 else 0

/-- Contribution of one panel to `vCount`: `getV(r, c)` summed over
`r < ROWS - 1`, `c < COLS`. -/
def vCountOf (g : Grid) : ℕ :=
  ∑ r ∈ Finset.range (ROWS - 1), ∑ c ∈ Finset.range COLS,
    if g.getV r c then 1 else 0

/-- Contribution of one panel to `arcCount`: records with `type === 'arc'`. -/
def arcCountOf (g : Grid) : ℕ :=
  (g.dEdges.filter fun e => e.type == DEdgeKind.arc).length

/-- Contribution of one panel to `diagCount`: the `else` branch. -/
def diagCountOf (g : Grid) : ℕ :=
  (g.dEdges.filter fun e => !(e.type == DEdgeKind.arc)).length

/-- The accumulator `hCount` accumulated over all panels of the edge source. -/
def hCount (gs : List Grid) : ℕ := (gs.map hCountOf).sum

/-- The accumulator `vCount` accumulated over all panels. -/
def vCount (gs : List Grid) : ℕ := (gs.map vCountOf).sum

/-- The accumulator `arcCount` accumulated over all panels. -/
def arcCount (gs : List Grid) : ℕ := (gs.map arcCountOf).sum

/-- The accumulator `diagCount` accumulated over all panels. -/
def diagCount (gs : List Grid) : ℕ := (gs.map diagCountOf).sum

/-- The sum `const totalEdges = hCount + vCount + arcCount + diagCount`. -/
def totalEdges (gs : List Grid) : ℕ :=
  hCount gs + vCount gs + arcCount gs + diagCount gs

/-- The constant `const maxEdges = 80 + 68 + 64` — the fixed per-panel constant. -/
def maxEdges : ℕ := 80 + 68 + 64

/-- The value `edgeDensity: +(totalEdges / maxEdges * 100).toFixed(1)`. -/
def edgeDensity (gs : List Grid) : ℚ :=
  toFixed1 ((totalEdges gs : ℚ) / (maxEdges : ℚ) * 100)

/-- The character class of the regex `/[HVLC]/g`. -/
def isSegTok (ch : Char) : Bool :=
  ch == 'H' || ch == 'V' || ch == 'L' || ch == 'C'

/-- The count `(d.match(/[HVLC]/g) || []).length`: the number of segment tokens of
one `d` string. -/
def segCount (d : String) : ℕ :=
  (d.toList.filter isSegTok).length

/-- The chain-length loop of `get_generated_stats`: one entry is pushed
per `<path>` element; `p.getAttribute('d')` may be `null`, defaulted to
the empty string by `|| ''`. -/
def extractChains (ds : List (Option String)) : List ℕ :=
  ds.map fun od => segCount (od.getD "")

/-- The field `pathCount: paths.length`. -/
def pathCount (ds : List (Option String)) : ℕ := ds.length

/-- The statistic `avgChain`: the mean chain length rounded to one decimal, `0` when the
list is empty (the code guards with `chainLengths.length > 0`). -/
def avgChain (chains : List ℕ) : ℚ :=
  if 0 < chains.length then toFixed1 ((chains.sum : ℚ) / (chains.length : ℚ))
  else 0

/-- The statistic `maxChain`: `Math.max(...chainLengths)` when non-empty, else `0`. -/
def maxChain (chains : List ℕ) : ℕ :=
  if 0 < chains.length then chains.foldl max 0 else 0

/-- The error the spec names for empty aggregation input.  `main` has no
branch producing it. -/
inductive AggError
  | emptyInput
deriving DecidableEq

/-- The aggregation of per-sample coverage percentages in `main`
(lines 196 and 240): `sum(...) / len(...) if xs else 0`.  The code never
raises, so every input yields a value. -/
def aggregateCoverage (cs : List ℚ) : Except AggError ℚ :=
  Except.ok (if cs.isEmpty then 0 else cs.sum / (cs.length : ℚ))

/-- The numeric value of a reported quadrant percentage, `0` for the `NaN`
cells; such cells always carry weight `0` in the weighted averages below. -/
def pctVal (b : PixelBuffer) (r c : ℕ) : ℚ :=
  (quadrantPct b r c).getD 0

/-- A single panel with no H or V edges and 213 arc records. -/
def gArcs213 : Grid :=
  { getH := fun _ _ => false, getV := fun _ _ => false
    dEdges := List.replicate 213 ⟨DEdgeKind.arc⟩ }

/-- A single panel with no edges at all. -/
def gEmpty : Grid :=
  { getH := fun _ _ => false, getV := fun _ _ => false, dEdges := [] }

/-- A 1×1 buffer holding one pure-white pixel. -/
def bufOne : PixelBuffer := ⟨1, 1, [255, 255, 255, 255]⟩

/-- A 4×2 buffer of pure-white pixels: each quadrant cell of the 2×4 grid
receives exactly one pixel. -/
def bufFourTwo : PixelBuffer := ⟨4, 2, List.replicate 32 255⟩

/-- A 1×1 buffer whose pixel has mean brightness exactly 128. -/
def bufGray : PixelBuffer := ⟨1, 1, [128, 128, 128, 255]⟩

/-! ## Helper lemmas -/

lemma toFixed1_sub_le (x : ℚ) : |toFixed1 x - x| ≤ 1 / 20 := by
  have h := abs_sub_round (x * 10)
  rw [abs_sub_comm] at h
  have hrw : toFixed1 x - x = ((round (x * 10) : ℤ) - x * 10) / 10 := by
    unfold toFixed1; ring
  rw [hrw, abs_div, abs_of_pos (by norm_num : (0 : ℚ) < 10)]
  linarith

lemma toFixed2_sub_le (x : ℚ) : |toFixed2 x - x| ≤ 1 / 200 := by
  have h := abs_sub_round (x * 100)
  rw [abs_sub_comm] at h
  have hrw : toFixed2 x - x = ((round (x * 100) : ℤ) - x * 100) / 100 := by
    unfold toFixed2; ring
  rw [hrw, abs_div, abs_of_pos (by norm_num : (0 : ℚ) < 100)]
  linarith

lemma round_le_round_of_le {x y : ℚ} (h : x ≤ y) : round x ≤ round y := by
  rw [round_eq, round_eq]
  exact Int.floor_le_floor (by linarith)

lemma toFixed1_nonneg {x : ℚ} (hx : 0 ≤ x) : 0 ≤ toFixed1 x := by
  unfold toFixed1
  have h0 : round (0 : ℚ) ≤ round (x * 10) :=
    round_le_round_of_le (by nlinarith)
  rw [round_zero] at h0
  have : (0 : ℚ) ≤ (round (x * 10) : ℤ) := by exact_mod_cast h0
  linarith

lemma toFixed1_le_100 {x : ℚ} (hx : x ≤ 100) : toFixed1 x ≤ 100 := by
  unfold toFixed1
  have h0 : round (x * 10) ≤ round (1000 : ℚ) :=
    round_le_round_of_le (by nlinarith)
  have h1 : round ((1000 : ℤ) : ℚ) = 1000 := round_intCast 1000
  rw [show ((1000 : ℤ) : ℚ) = (1000 : ℚ) by norm_num] at h1
  rw [h1] at h0
  have : ((round (x * 10) : ℤ) : ℚ) ≤ 1000 := by exact_mod_cast h0
  linarith

lemma length_filter_add_length_filter_neg {α : Type} (l : List α) (p : α → Bool) :
    (l.filter p).length + (l.filter fun a => !(p a)).length = l.length := by
  induction l with
  | nil => rfl
  | cons a t ih =>
    by_cases h : p a = true <;>
      simp only [List.filter, h, Bool.not_true, Bool.not_false, List.length_cons] <;>
      omega

lemma pixels_bufOne : pixels bufOne = {(0, 0)} := by
  simp [pixels, bufOne, Finset.range_one]

lemma quadOf_bufOne : quadOf bufOne (0, 0) = (0, 0) := by
  simp [quadOf]
  constructor
  · norm_num [quadRow, bufOne, qRows]
  · norm_num [quadCol, bufOne, qCols]

lemma quadrantTotal_bufOne : quadrantTotal bufOne 0 1 = 0 := by
  rw [quadrantTotal, pixels_bufOne, Finset.filter_singleton, quadOf_bufOne]
  decide

/-! ## C9 and C10: chain statistics -/

/-- C9: `avgChain × count` recovers `sum(chains)` up to the one-decimal
rounding of the mean (at most `1/20` per chain), and the empty sequence
yields `avgChain = 0` and `maxChain = 0` through the explicit
`length > 0` guard, with no division fault. -/
theorem avgChain_mul_count (chains : List ℕ) :
    |avgChain chains * (chains.length : ℚ) - (chains.sum : ℚ)|
      ≤ (chains.length : ℚ) / 20
    ∧ avgChain [] = 0 ∧ maxChain [] = 0 := by
  refine ⟨?_, rfl, rfl⟩
  rcases Nat.eq_zero_or_pos chains.length with h | h
  · rw [List.length_eq_zero.mp h]
    simp [avgChain]
  · have hn : (0 : ℚ) < (chains.length : ℚ) := by exact_mod_cast h
    have havg : avgChain chains = toFixed1 ((chains.sum : ℚ) / (chains.length : ℚ)) := by
      simp [avgChain, h]
    have herr := toFixed1_sub_le ((chains.sum : ℚ) / (chains.length : ℚ))
    have hrw : avgChain chains * (chains.length : ℚ) - (chains.sum : ℚ)
        = (toFixed1 ((chains.sum : ℚ) / (chains.length : ℚ))
            - (chains.sum : ℚ) / (chains.length : ℚ)) * (chains.length : ℚ) := by
      rw [havg]; field_simp
    rw [hrw, abs_mul, abs_of_pos hn]
    calc |toFixed1 ((chains.sum : ℚ) / (chains.length : ℚ))
            - (chains.sum : ℚ) / (chains.length : ℚ)| * (chains.length : ℚ)
        ≤ 1 / 20 * (chains.length : ℚ) :=
          mul_le_mul_of_nonneg_right herr (le_of_lt hn)
      _ = (chains.length : ℚ) / 20 := by ring

/-- C10: every `<path>` element contributes exactly one entry (possibly 0)
to `chainLengths`, so `pathCount` equals the length of the reported
sequence — also when the `d` attribute is missing or empty. -/
theorem extractChains_length_eq_pathCount (ds : List (Option String)) :
    (extractChains ds).length = pathCount ds := by
  simp [extractChains, pathCount]

/-! ## C1: degenerate paths are not excluded -/

/-- C1 counterexample: on the spec's own scenario input, the code reports
chain lengths `[3, 0]` — the degenerate path `"M0 0"` is not excluded —
so the reported sequence is not `[3]` and `avgChain` is `1.5`, not `3`. -/
theorem extractChains_degenerate_cex :
    ¬(extractChains [some "M0 0H10V10L5 5", some "M0 0"] = [3]
      ∧ avgChain (extractChains [some "M0 0H10V10L5 5", some "M0 0"]) = 3) := by
  decide

/-- C1 amended: a path whose `d` string has zero segment tokens still
contributes a length-0 entry to the reported chain lengths; on
`["M0 0H10V10L5 5", "M0 0"]` the lengths are `[3, 0]`, `avgChain = 1.5`
and `maxChain = 3`. -/
theorem extractChains_degenerate_entry :
    extractChains [some "M0 0H10V10L5 5", some "M0 0"] = [3, 0]
    ∧ avgChain (extractChains [some "M0 0H10V10L5 5", some "M0 0"]) = 3 / 2
    ∧ maxChain (extractChains [some "M0 0H10V10L5 5", some "M0 0"]) = 3 := by
  have h1 : extractChains [some "M0 0H10V10L5 5", some "M0 0"] = [3, 0] := by decide
  refine ⟨h1, ?_, by rw [h1]; decide⟩
  rw [h1]
  norm_num [avgChain, toFixed1, round_eq, List.sum_cons, List.sum_nil]

/-! ## C2: aggregation of the empty sample set -/

/-- C2 counterexample: aggregating the empty list of coverage percentages
does not fail with `EmptyInputError` — the code has no raising branch. -/
theorem aggregateCoverage_empty_cex :
    aggregateCoverage [] ≠ Except.error AggError.emptyInput := by
  simp [aggregateCoverage]

/-- C2 amended: aggregation of the empty sample set silently returns `0`
(the `if xs else 0` fallbacks at lines 196 and 240), exactly the latent
behavior the spec flags as an open question. -/
theorem aggregateCoverage_empty_zero :
    aggregateCoverage [] = Except.ok 0 := rfl

/-! ## C7: zero-sized buffers -/

/-- C7 counterexample: a 0-wide buffer is not rejected with
`InvalidBufferError` — `analyze_pixels` has no validation branch. -/
theorem analyzePixels_zero_size_cex :
    analyzePixels ⟨0, 3, []⟩ ≠ Except.error AnalyzeError.invalidBuffer := by
  simp [analyzePixels]

/-- C7 amended: the analyzer performs no dimension check and raises no
`InvalidBufferError`; on a buffer with zero width or height it still
produces a report, whose `coveragePct` is the JavaScript `0/0 = NaN`
(modelled `none`) rather than a number. -/
theorem analyzePixels_zero_size_nan (b : PixelBuffer)
    (h : b.width = 0 ∨ b.height = 0) :
    analyzePixels b = Except.ok (mkCoverageReport b)
    ∧ (mkCoverageReport b).coveragePct = none := by
  refine ⟨rfl, ?_⟩
  have h0 : b.width * b.height = 0 := by rcases h with h | h <;> simp [h]
  simp [mkCoverageReport, h0]

theorem analyzePixels_zero_size_nan_witness :
    analyzePixels ⟨0, 3, []⟩ = Except.ok (mkCoverageReport ⟨0, 3, []⟩)
    ∧ (mkCoverageReport ⟨0, 3, []⟩).coveragePct = none :=
  analyzePixels_zero_size_nan ⟨0, 3, []⟩ (Or.inl rfl)

/-! ## C8: quadrant cells that receive no pixels -/

/-- C8 counterexample: in a 1×1 buffer (width smaller than the 4 grid
columns) the cell `(0, 1)` receives zero pixels and its reported
percentage is the JavaScript `0/0 = NaN` (modelled `none`), not `0`. -/
theorem quadrantPct_empty_cell_cex :
    quadrantTotal bufOne 0 1 = 0 ∧ quadrantPct bufOne 0 1 ≠ some 0 :=
  ⟨quadrantTotal_bufOne, by simp [quadrantPct, quadrantTotal_bufOne]⟩

/-- C8 amended: a quadrant cell that receives zero pixels is reported as
`NaN` (modelled `none`) — an undefined value, not the number `0`; no
division fault occurs. -/
theorem quadrantPct_empty_cell_nan (b : PixelBuffer) (r c : ℕ)
    (h : quadrantTotal b r c = 0) :
    quadrantPct b r c = none := by
  simp [quadrantPct, h]

theorem quadrantPct_empty_cell_nan_witness :
    quadrantTotal bufOne 0 1 = 0 ∧ quadrantPct bufOne 0 1 = none :=
  ⟨quadrantTotal_bufOne, quadrantPct_empty_cell_nan bufOne 0 1 quadrantTotal_bufOne⟩

/-! ## C5: the white-pixel classifier -/

/-- C5: a pixel is classified white iff the mean of its R, G and B
channels (alpha never read) strictly exceeds the threshold 128 —
equivalently iff the channel sum exceeds 384 — and a pixel whose mean
brightness is exactly 128 is not counted as white. -/
theorem isWhite_iff_mean_gt (b : PixelBuffer) (y x : ℕ) :
    (isWhite b y x = true ↔ (128 : ℚ) < brightness b y x)
    ∧ (isWhite b y x = true
        ↔ 384 < b.chan y x 0 + b.chan y x 1 + b.chan y x 2)
    ∧ (brightness b y x = 128 → isWhite b y x = false) := by
  have h1 : isWhite b y x = true ↔ (128 : ℚ) < brightness b y x := by
    simp [isWhite]
  have h2 : (128 : ℚ) < brightness b y x
      ↔ 384 < b.chan y x 0 + b.chan y x 1 + b.chan y x 2 := by
    unfold brightness
    rw [lt_div_iff₀ (by norm_num : (0 : ℚ) < 3)]
    constructor
    · intro h; exact_mod_cast h
    · intro h; exact_mod_cast h
  refine ⟨h1, h1.trans h2, fun h => ?_⟩
  simp [isWhite, h]

theorem isWhite_iff_mean_gt_witness : isWhite bufGray 0 0 = false :=
  (isWhite_iff_mean_gt bufGray 0 0).2.2
    (by norm_num [brightness, PixelBuffer.chan, bufGray])

/-! ## C6: edge totals against the fixed maximum -/

lemma hCountOf_le (g : Grid) : hCountOf g ≤ 80 := by
  unfold hCountOf
  calc ∑ r ∈ Finset.range ROWS, ∑ c ∈ Finset.range (COLS - 1),
        (if g.getH r c then 1 else 0)
      ≤ ∑ r ∈ Finset.range ROWS, ∑ c ∈ Finset.range (COLS - 1), 1 := by
        refine Finset.sum_le_sum fun r _ => Finset.sum_le_sum fun c _ => ?_
        split <;> omega
    _ = 80 := by simp [ROWS, COLS]

lemma vCountOf_le (g : Grid) : vCountOf g ≤ 68 := by
  unfold vCountOf
  calc ∑ r ∈ Finset.range (ROWS - 1), ∑ c ∈ Finset.range COLS,
        (if g.getV r c then 1 else 0)
      ≤ ∑ r ∈ Finset.range (ROWS - 1), ∑ c ∈ Finset.range COLS, 1 := by
        refine Finset.sum_le_sum fun r _ => Finset.sum_le_sum fun c _ => ?_
        split <;> omega
    _ = 68 := by simp [ROWS, COLS]

lemma arcCountOf_add_diagCountOf (g : Grid) :
    arcCountOf g + diagCountOf g = g.dEdges.length :=
  length_filter_add_length_filter_neg g.dEdges _

lemma totalEdges_singleton (g : Grid) :
    totalEdges [g] = hCountOf g + vCountOf g + arcCountOf g + diagCountOf g := by
  simp [totalEdges, hCount, vCount, arcCount, diagCount]

lemma edgeDensity_nonneg (gs : List Grid) : 0 ≤ edgeDensity gs := by
  unfold edgeDensity
  apply toFixed1_nonneg
  exact mul_nonneg (div_nonneg (Nat.cast_nonneg _) (Nat.cast_nonneg _)) (by norm_num)

lemma edgeDensity_le_100_of_le (gs : List Grid) (h : totalEdges gs ≤ maxEdges) :
    edgeDensity gs ≤ 100 := by
  unfold edgeDensity
  apply toFixed1_le_100
  have hm : ((maxEdges : ℕ) : ℚ) = 212 := by norm_num [maxEdges]
  have ht : (totalEdges gs : ℚ) ≤ 212 := by
    rw [← hm]
    exact_mod_cast h
  have h0 : (0 : ℚ) ≤ (totalEdges gs : ℚ) := Nat.cast_nonneg _
  rw [hm, div_mul_eq_mul_div, div_le_iff₀ (by norm_num : (0 : ℚ) < 212)]
  linarith

set_option maxRecDepth 8000 in
lemma totalEdges_gArcs213 : totalEdges [gArcs213] = 213 := by decide

/-- C6 counterexample: an edge source consisting of one panel whose
diagonal list holds 213 arc records has `totalEdges = 213 > 212` and, in
consequence, an edge density above 100. -/
theorem edgeDensity_bound_cex :
    ¬(totalEdges [gArcs213] ≤ maxEdges ∧ edgeDensity [gArcs213] ≤ 100) := by
  intro h
  exact absurd h.1 (by rw [totalEdges_gArcs213]; decide)

/-- C6 amended: for a single panel whose diagonal/arc list has at most 64
records (one per cell slot of the fixed grid, as the constant
`maxEdges = 80 + 68 + 64` presumes), `totalEdges ≤ maxPossibleEdges` and
`edgeDensity ∈ [0, 100]`.  The bound fails for multi-panel sources or
longer diagonal lists, since the denominator stays the per-panel
constant. -/
theorem edgeDensity_single_panel_bound (g : Grid) (hd : g.dEdges.length ≤ 64) :
    totalEdges [g] ≤ maxEdges ∧ 0 ≤ edgeDensity [g] ∧ edgeDensity [g] ≤ 100 := by
  have htot : totalEdges [g] ≤ 212 := by
    have h1 := hCountOf_le g
    have h2 := vCountOf_le g
    have h3 := arcCountOf_add_diagCountOf g
    rw [totalEdges_singleton]
    omega
  have hle : totalEdges [g] ≤ maxEdges := by
    unfold maxEdges
    omega
  exact ⟨hle, edgeDensity_nonneg [g], edgeDensity_le_100_of_le [g] hle⟩

theorem edgeDensity_single_panel_bound_witness :
    gEmpty.dEdges.length ≤ 64
    ∧ (totalEdges [gEmpty] ≤ maxEdges
        ∧ 0 ≤ edgeDensity [gEmpty] ∧ edgeDensity [gEmpty] ≤ 100) :=
  ⟨by decide, edgeDensity_single_panel_bound gEmpty (by decide)⟩

/-! ## C4: the quadrant grid partitions the pixels -/

lemma quadOf_mem_grid (b : PixelBuffer) (p : ℕ × ℕ) :
    quadOf b p ∈ Finset.range qRows ×ˢ Finset.range qCols := by
  rw [Finset.mem_product, Finset.mem_range, Finset.mem_range]
  exact ⟨Nat.lt_of_le_of_lt (min_le_right _ _) (by decide),
    Nat.lt_of_le_of_lt (min_le_right _ _) (by decide)⟩

lemma sum_quadrantTotal (b : PixelBuffer) :
    ∑ r ∈ Finset.range qRows, ∑ c ∈ Finset.range qCols, quadrantTotal b r c
      = b.width * b.height := by
  have h := Finset.card_eq_sum_card_fiberwise
    (fun p (_ : p ∈ pixels b) => quadOf_mem_grid b p)
  rw [Finset.sum_product] at h
  unfold quadrantTotal
  rw [← h, pixels, Finset.card_product, Finset.card_range, Finset.card_range]
  exact Nat.mul_comm _ _

/-- C4: the clamped floor rule sends every pixel to exactly one cell of
the 2×4 grid, so the per-cell pixel totals sum to the reported
`totalPixels`, which is `width * height`. -/
theorem quadrant_partition (b : PixelBuffer) (h1 : 0 < b.width) (h2 : 0 < b.height) :
    ∑ r ∈ Finset.range qRows, ∑ c ∈ Finset.range qCols, quadrantTotal b r c
      = (mkCoverageReport b).totalPixels
    ∧ (mkCoverageReport b).totalPixels = b.width * b.height :=
  ⟨by rw [sum_quadrantTotal]; rfl, rfl⟩

theorem quadrant_partition_witness :
    0 < bufOne.width ∧ 0 < bufOne.height
    ∧ (∑ r ∈ Finset.range qRows, ∑ c ∈ Finset.range qCols, quadrantTotal bufOne r c
          = (mkCoverageReport bufOne).totalPixels
        ∧ (mkCoverageReport bufOne).totalPixels = bufOne.width * bufOne.height) :=
  ⟨by decide, by decide, quadrant_partition bufOne (by decide) (by decide)⟩

/-! ## C3: weighted average of quadrant coverage vs overall coverage -/

lemma sum_quadrantWhite (b : PixelBuffer) :
    ∑ r ∈ Finset.range qRows, ∑ c ∈ Finset.range qCols, quadrantWhite b r c
      = whiteTotal b := by
  have h := Finset.sum_fiberwise_of_maps_to
    (fun p (_ : p ∈ pixels b) => quadOf_mem_grid b p)
    (fun p => if isWhite b p.1 p.2 then 1 else 0)
  rw [Finset.sum_product] at h
  unfold quadrantWhite whiteTotal
  exact h

lemma quadrantWhite_le_total (b : PixelBuffer) (r c : ℕ) :
    quadrantWhite b r c ≤ quadrantTotal b r c := by
  unfold quadrantWhite quadrantTotal
  rw [Finset.card_eq_sum_ones]
  refine Finset.sum_le_sum fun p _ => ?_
  split <;> omega

lemma cell_weighted_err (b : PixelBuffer) (r c : ℕ) :
    |(quadrantTotal b r c : ℚ) * pctVal b r c - (quadrantWhite b r c : ℚ) * 100|
      ≤ (quadrantTotal b r c : ℚ) / 20 := by
  rcases Nat.eq_zero_or_pos (quadrantTotal b r c) with h | h
  · have hw : quadrantWhite b r c = 0 :=
      Nat.le_zero.mp (h ▸ quadrantWhite_le_total b r c)
    simp [h, hw]
  · have hT : (0 : ℚ) < (quadrantTotal b r c : ℚ) := by exact_mod_cast h
    have hne : quadrantTotal b r c ≠ 0 := Nat.pos_iff_ne_zero.mp h
    have hpct : pctVal b r c
        = toFixed1 ((quadrantWhite b r c : ℚ) / (quadrantTotal b r c : ℚ) * 100) := by
      simp [pctVal, quadrantPct, hne]
    have herr := toFixed1_sub_le
      ((quadrantWhite b r c : ℚ) / (quadrantTotal b r c : ℚ) * 100)
    have hzT : (quadrantTotal b r c : ℚ)
          * ((quadrantWhite b r c : ℚ) / (quadrantTotal b r c : ℚ) * 100)
        = (quadrantWhite b r c : ℚ) * 100 := by
      field_simp
    have hrw : (quadrantTotal b r c : ℚ) * pctVal b r c
          - (quadrantWhite b r c : ℚ) * 100
        = (quadrantTotal b r c : ℚ)
          * (toFixed1 ((quadrantWhite b r c : ℚ) / (quadrantTotal b r c : ℚ) * 100)
              - (quadrantWhite b r c : ℚ) / (quadrantTotal b r c : ℚ) * 100) := by
      rw [hpct, mul_sub, hzT]
    rw [hrw, abs_mul, abs_of_pos hT]
    have hmul := mul_le_mul_of_nonneg_left herr (le_of_lt hT)
    linarith

/-- C3: for a buffer with positive dimensions, the pixel-count-weighted
average of the reported per-quadrant coverage percentages agrees with the
reported overall `coveragePct` up to the rounding slack: at most `1/20`
from the one-decimal per-cell rounding plus `1/200` from the two-decimal
overall rounding, i.e. `11/200 = 0.055`.  Cells with zero pixels carry
weight zero. -/
theorem coverage_weighted_avg (b : PixelBuffer)
    (hw : 0 < b.width) (hh : 0 < b.height) :
    ∃ cov : ℚ, (mkCoverageReport b).coveragePct = some cov
      ∧ |(∑ r ∈ Finset.range qRows, ∑ c ∈ Finset.range qCols,
            (quadrantTotal b r c : ℚ) * pctVal b r c)
          / ((b.width * b.height : ℕ) : ℚ) - cov| ≤ 11 / 200 := by
  have hNne : b.width * b.height ≠ 0 :=
    Nat.mul_ne_zero (Nat.pos_iff_ne_zero.mp hw) (Nat.pos_iff_ne_zero.mp hh)
  have hN0 : (0 : ℚ) < ((b.width * b.height : ℕ) : ℚ) := by
    exact_mod_cast Nat.pos_of_ne_zero hNne
  refine ⟨toFixed2 ((whiteTotal b : ℚ) / ((b.width * b.height : ℕ) : ℚ) * 100),
    by simp [mkCoverageReport, hNne], ?_⟩
  have hA : |(∑ r ∈ Finset.range qRows, ∑ c ∈ Finset.range qCols,
               (quadrantTotal b r c : ℚ) * pctVal b r c)
             - (whiteTotal b : ℚ) * 100|
      ≤ ((b.width * b.height : ℕ) : ℚ) / 20 := by
    have hS2 : ∑ r ∈ Finset.range qRows, ∑ c ∈ Finset.range qCols,
          (quadrantWhite b r c : ℚ) * 100
        = (whiteTotal b : ℚ) * 100 := by
      simp only [← Finset.sum_mul]
      congr 1
      rw [← sum_quadrantWhite b]
      push_cast
      rfl
    have hST : ∑ r ∈ Finset.range qRows, ∑ c ∈ Finset.range qCols,
          (quadrantTotal b r c : ℚ) / 20
        = ((b.width * b.height : ℕ) : ℚ) / 20 := by
      simp only [← Finset.sum_div]
      congr 1
      rw [← sum_quadrantTotal b]
      push_cast
      rfl
    have hsplit : (∑ r ∈ Finset.range qRows, ∑ c ∈ Finset.range qCols,
          (quadrantTotal b r c : ℚ) * pctVal b r c)
        - (whiteTotal b : ℚ) * 100
        = ∑ r ∈ Finset.range qRows, ∑ c ∈ Finset.range qCols,
            ((quadrantTotal b r c : ℚ) * pctVal b r c
              - (quadrantWhite b r c : ℚ) * 100) := by
      rw [← hS2]
      simp only [Finset.sum_sub_distrib]
    rw [hsplit]
    calc |∑ r ∈ Finset.range qRows, ∑ c ∈ Finset.range qCols,
            ((quadrantTotal b r c : ℚ) * pctVal b r c
              - (quadrantWhite b r c : ℚ) * 100)|
        ≤ ∑ r ∈ Finset.range qRows, |∑ c ∈ Finset.range qCols,
            ((quadrantTotal b r c : ℚ) * pctVal b r c
              - (quadrantWhite b r c : ℚ) * 100)| :=
          Finset.abs_sum_le_sum_abs _ _
      _ ≤ ∑ r ∈ Finset.range qRows, ∑ c ∈ Finset.range qCols,
            |(quadrantTotal b r c : ℚ) * pctVal b r c
              - (quadrantWhite b r c : ℚ) * 100| :=
          Finset.sum_le_sum fun r _ => Finset.abs_sum_le_sum_abs _ _
      _ ≤ ∑ r ∈ Finset.range qRows, ∑ c ∈ Finset.range qCols,
            (quadrantTotal b r c : ℚ) / 20 :=
          Finset.sum_le_sum fun r _ => Finset.sum_le_sum fun c _ =>
            cell_weighted_err b r c
      _ = ((b.width * b.height : ℕ) : ℚ) / 20 := hST
  have hB : |(∑ r ∈ Finset.range qRows, ∑ c ∈ Finset.range qCols,
        (quadrantTotal b r c : ℚ) * pctVal b r c)
          / ((b.width * b.height : ℕ) : ℚ)
      - (whiteTotal b : ℚ) * 100 / ((b.width * b.height : ℕ) : ℚ)| ≤ 1 / 20 := by
    rw [div_sub_div_same, abs_div, abs_of_pos hN0, div_le_iff₀ hN0]
    linarith [hA]
  have hC : |toFixed2 ((whiteTotal b : ℚ) / ((b.width * b.height : ℕ) : ℚ) * 100)
      - (whiteTotal b : ℚ) * 100 / ((b.width * b.height : ℕ) : ℚ)| ≤ 1 / 200 := by
    have h := toFixed2_sub_le
      ((whiteTotal b : ℚ) / ((b.width * b.height : ℕ) : ℚ) * 100)
    have heq : (whiteTotal b : ℚ) / ((b.width * b.height : ℕ) : ℚ) * 100
        = (whiteTotal b : ℚ) * 100 / ((b.width * b.height : ℕ) : ℚ) := by
      ring
    nth_rewrite 2 [heq] at h
    exact h
  calc |(∑ r ∈ Finset.range qRows, ∑ c ∈ Finset.range qCols,
          (quadrantTotal b r c : ℚ) * pctVal b r c)
            / ((b.width * b.height : ℕ) : ℚ)
        - toFixed2 ((whiteTotal b : ℚ) / ((b.width * b.height : ℕ) : ℚ) * 100)|
      ≤ |(∑ r ∈ Finset.range qRows, ∑ c ∈ Finset.range qCols,
          (quadrantTotal b r c : ℚ) * pctVal b r c)
            / ((b.width * b.height : ℕ) : ℚ)
          - (whiteTotal b : ℚ) * 100 / ((b.width * b.height : ℕ) : ℚ)|
        + |(whiteTotal b : ℚ) * 100 / ((b.width * b.height : ℕ) : ℚ)
          - toFixed2 ((whiteTotal b : ℚ) / ((b.width * b.height : ℕ) : ℚ) * 100)| :=
        abs_sub_le _ _ _
    _ ≤ 1 / 20 + 1 / 200 := add_le_add hB (by rw [abs_sub_comm]; exact hC)
    _ = 11 / 200 := by norm_num

theorem coverage_weighted_avg_witness :
    0 < bufFourTwo.width ∧ 0 < bufFourTwo.height
    ∧ (∃ cov : ℚ, (mkCoverageReport bufFourTwo).coveragePct = some cov
        ∧ |(∑ r ∈ Finset.range qRows, ∑ c ∈ Finset.range qCols,
              (quadrantTotal bufFourTwo r c : ℚ) * pctVal bufFourTwo r c)
            / ((bufFourTwo.width * bufFourTwo.height : ℕ) : ℚ) - cov| ≤ 11 / 200) :=
  ⟨by decide, by decide, coverage_weighted_avg bufFourTwo (by decide) (by decide)⟩

end Compare
